import Mathlib

/-!
Verification of the vosk wake-word plugin (ovos-ww-plugin-vosk).

This file shallowly embeds the core of src/ovos_ww_plugin_vosk/__init__.py:
the match-rule engine (VoskWakeWordPlugin.apply_rules), the model containers
(ModelContainer, MultiLangModelContainer), and the detection ticks
(VoskWakeWordPlugin.found_wake_word, VoskMultiWakeWordPlugin.found_wake_word).

Python strings are Lean strings; the Python primitives used by the source
(str.lower, str.strip, str.split("-")[0], substring membership, startswith,
endswith, str.replace) are implemented on the character list underlying the
string.  Python floats are modelled as rationals.  The external transcription
engine (vosk KaldiRecognizer), the fuzzy scorer (ovos_utils.parse.fuzzy_match)
and the model downloader are opaque collaborators passed as parameters.
Exceptions are modelled with Except.
-/

set_option autoImplicit false

namespace Vosk

/-- Python str.lower on one character (Lean core Char.toLower has exactly the
ASCII semantics used by the source's lowercase wake phrases). -/
def lowerChar (c : Char) : Char := Char.toLower c

/-- Python s.lower(): lower-case every character. -/
def pyLower (s : String) : String := ⟨s.data.map lowerChar⟩

/-- Drop leading and trailing whitespace from a character list. -/
def stripL (l : List Char) : List Char :=
  ((l.dropWhile Char.isWhitespace).reverse.dropWhile Char.isWhitespace).reverse

/-- Python s.strip(). -/
def pyStrip (s : String) : String := ⟨stripL s.data⟩

/-- Python s.lower().strip(), the phrase normalization used by apply_rules. -/
def pyLowerStrip (s : String) : String := pyStrip (pyLower s)

/-- Characters other than the dash separator of IETF language tags. -/
def notDash (c : Char) : Bool := c != '-'

/-- Python lang.split("-")[0]: everything before the first dash. -/
def pySplitHead (s : String) : String := ⟨s.data.takeWhile notDash⟩

/-- Python lang.split("-")[0].lower(), the language normalization used by all
model containers. -/
def normLang (s : String) : String := pyLower (pySplitHead s)

/-- Python s.isPrefixOf-style test: does t start with s (t.startswith(s))? -/
def pyStarts (t s : String) : Bool := s.data.isPrefixOf t.data

/-- Python t.endswith(s). -/
def pyEnds (t s : String) : Bool := s.data.reverse.isPrefixOf t.data.reverse

/-- Substring search on character lists: needle s occurs somewhere in l. -/
def subOccurs (s : List Char) : List Char → Bool
  | [] => s.isEmpty
  | c :: rest => s.isPrefixOf (c :: rest) || subOccurs s rest

/-- Python s in t (substring containment). -/
def pyIn (s t : String) : Bool := subOccurs s.data t.data

/-- Python name.replace("_", " ").replace("-", " ") used to derive the default
phrase from a keyword or hotword name. -/
def sepsToSpaces (s : String) : String :=
  ⟨s.data.map (fun c => if c = '_' then ' ' else if c = '-' then ' ' else c)⟩

/- Character-level facts needed for the normalization lemmas. -/

lemma lowerChar_eq (c : Char) :
    lowerChar c = if c.toNat ≥ 65 ∧ c.toNat ≤ 90 then Char.ofNat (c.toNat + 32) else c := rfl

lemma lowerChar_lowerChar (c : Char) : lowerChar (lowerChar c) = lowerChar c := by
  by_cases h : c.toNat ≥ 65 ∧ c.toNat ≤ 90
  · rw [lowerChar_eq c, if_pos h]
    obtain ⟨h1, h2⟩ := h
    set n := c.toNat with hn
    interval_cases n <;> decide
  · rw [lowerChar_eq c, if_neg h, lowerChar_eq c, if_neg h]

lemma isWhitespace_lowerChar (c : Char) :
    (lowerChar c).isWhitespace = c.isWhitespace := by
  by_cases h : c.toNat ≥ 65 ∧ c.toNat ≤ 90
  · rw [lowerChar_eq c, if_pos h]
    obtain ⟨h1, h2⟩ := h
    have hc : c.isWhitespace = false := by
      unfold Char.isWhitespace
      have e32 : ¬(c = ' ') := fun he => by rw [he] at h1; exact absurd h1 (by decide)
      have e9 : ¬(c = '\t') := fun he => by rw [he] at h1; exact absurd h1 (by decide)
      have e13 : ¬(c = '\r') := fun he => by rw [he] at h1; exact absurd h1 (by decide)
      have e10 : ¬(c = '\n') := fun he => by rw [he] at h1; exact absurd h1 (by decide)
      simp [e32, e9, e13, e10]
    rw [hc]
    set n := c.toNat with hn
    interval_cases n <;> decide
  · rw [lowerChar_eq c, if_neg h]

lemma notDash_lowerChar (c : Char) : notDash (lowerChar c) = notDash c := by
  by_cases h : c.toNat ≥ 65 ∧ c.toNat ≤ 90
  · rw [lowerChar_eq c, if_pos h]
    obtain ⟨h1, h2⟩ := h
    have hc : notDash c = true := by
      unfold notDash
      have hne : ¬(c = '-') := fun he => by rw [he] at h1; exact absurd h1 (by decide)
      simp [hne]
    rw [hc]
    set n := c.toNat with hn
    interval_cases n <;> decide
  · rw [lowerChar_eq c, if_neg h]

/- List-level helper lemmas. -/

lemma dropWhile_idem {α : Type} (p : α → Bool) (l : List α) :
    (l.dropWhile p).dropWhile p = l.dropWhile p := by
  induction l with
  | nil => rfl
  | cons c t ih =>
    by_cases h : p c
    · simp [List.dropWhile, h, ih]
    · simp [List.dropWhile, h]

lemma takeWhile_idem {α : Type} (p : α → Bool) (l : List α) :
    (l.takeWhile p).takeWhile p = l.takeWhile p := by
  rw [List.takeWhile_eq_self_iff]
  exact fun x hx => List.mem_takeWhile_imp hx

lemma dropWhile_head_false {α : Type} (p : α → Bool) (l : List α) (c : α) (t : List α)
    (h : l.dropWhile p = c :: t) : p c = false := by
  induction l with
  | nil => simp [List.dropWhile] at h
  | cons a rest ih =>
    by_cases ha : p a
    · simp only [List.dropWhile, ha] at h
      exact ih h
    · simp only [List.dropWhile, Bool.not_eq_true] at ha
      simp only [List.dropWhile, ha] at h
      cases h
      exact ha

lemma dropWhile_append_last {α : Type} (p : α → Bool) (c : α) (hc : p c = false)
    (xs : List α) : ∃ z, List.dropWhile p (xs ++ [c]) = z ++ [c] := by
  induction xs with
  | nil =>
    refine ⟨[], ?_⟩
    simp [List.dropWhile, hc]
  | cons a rest ih =>
    by_cases ha : p a
    · obtain ⟨z, hz⟩ := ih
      refine ⟨z, ?_⟩
      simp only [List.cons_append, List.dropWhile, ha]
      exact hz
    · simp only [Bool.not_eq_true] at ha
      refine ⟨a :: rest, ?_⟩
      simp [List.dropWhile, ha]

/-- Leading whitespace drop (the left half of Python strip). -/
def ldropWs (l : List Char) : List Char := l.dropWhile Char.isWhitespace

/-- Trailing whitespace drop (the right half of Python strip). -/
def rdropWs (l : List Char) : List Char := (l.reverse.dropWhile Char.isWhitespace).reverse

lemma stripL_eq (l : List Char) : stripL l = rdropWs (ldropWs l) := rfl

lemma rdropWs_idem (l : List Char) : rdropWs (rdropWs l) = rdropWs l := by
  unfold rdropWs
  rw [List.reverse_reverse, dropWhile_idem]

lemma ldropWs_after_rdropWs (c : Char) (t : List Char) (hc : c.isWhitespace = false) :
    ldropWs (rdropWs (c :: t)) = rdropWs (c :: t) := by
  unfold rdropWs
  rw [List.reverse_cons]
  obtain ⟨z, hz⟩ := dropWhile_append_last Char.isWhitespace c hc t.reverse
  rw [hz]
  unfold ldropWs
  have : (z ++ [c]).reverse = c :: z.reverse := by simp
  rw [this]
  simp [List.dropWhile, hc]

lemma stripL_idem (l : List Char) : stripL (stripL l) = stripL l := by
  rw [stripL_eq, stripL_eq]
  rcases hu : ldropWs l with _ | ⟨c, u⟩
  · simp [rdropWs, ldropWs, List.dropWhile]
  · have hc : c.isWhitespace = false := dropWhile_head_false _ l c u hu
    rw [ldropWs_after_rdropWs c u hc, rdropWs_idem]

lemma lowerChar_comp : lowerChar ∘ lowerChar = lowerChar :=
  funext lowerChar_lowerChar

lemma ws_comp_lowerChar : (Char.isWhitespace ∘ lowerChar) = Char.isWhitespace :=
  funext isWhitespace_lowerChar

lemma notDash_comp_lowerChar : (notDash ∘ lowerChar) = notDash :=
  funext notDash_lowerChar

lemma ldropWs_map_lower (l : List Char) :
    ldropWs (l.map lowerChar) = (ldropWs l).map lowerChar := by
  unfold ldropWs
  rw [List.dropWhile_map, ws_comp_lowerChar]

lemma rdropWs_map_lower (l : List Char) :
    rdropWs (l.map lowerChar) = (rdropWs l).map lowerChar := by
  unfold rdropWs
  rw [← List.map_reverse, List.dropWhile_map, ws_comp_lowerChar, List.map_reverse]

lemma stripL_map_lower (l : List Char) :
    stripL (l.map lowerChar) = (stripL l).map lowerChar := by
  rw [stripL_eq, stripL_eq, ldropWs_map_lower, rdropWs_map_lower]

lemma data_mk (l : List Char) : (⟨l⟩ : String).data = l := rfl

lemma pyLowerStrip_data (s : String) :
    (pyLowerStrip s).data = stripL (s.data.map lowerChar) := rfl

lemma pyLowerStrip_idem (s : String) : pyLowerStrip (pyLowerStrip s) = pyLowerStrip s := by
  unfold pyLowerStrip pyStrip pyLower
  apply congrArg
  rw [data_mk, data_mk, data_mk, ← stripL_map_lower, List.map_map, lowerChar_comp,
    stripL_idem]

lemma normLang_data (s : String) :
    (normLang s).data = (s.data.takeWhile notDash).map lowerChar := rfl

lemma normLang_idem (s : String) : normLang (normLang s) = normLang s := by
  unfold normLang pyLower pySplitHead
  apply congrArg
  rw [data_mk, data_mk, data_mk, List.takeWhile_map, notDash_comp_lowerChar,
    takeWhile_idem, List.map_map, lowerChar_comp]

/-! ## Match rules (MatchRule enum and VoskWakeWordPlugin.apply_rules) -/

/-- MatchRule from the source.  The last four constructors stand for
TOKEN_SORT_RATIO, TOKEN_SET_RATIO, PARTIAL_TOKEN_SORT_RATIO and
PARTIAL_TOKEN_SET_RATIO (shortened names). -/
inductive MatchRule
  | contains
  | equals
  | starts
  | ends
  | fuzzy
  | tokenSort
  | tokenSet
  | pTokenSort
  | pTokenSet
  deriving DecidableEq, Repr

/-- Scoring strategies of the external collaborator ovos_utils.parse.fuzzy_match
(MatchStrategy enum; simple stands for SIMPLE_RATIO, the default). -/
inductive Strategy
  | simple
  | tokenSort
  | tokenSet
  | pTokenSort
  | pTokenSet
  deriving DecidableEq, Repr

/-- The external fuzzy scorer: fuzzy_match(x, against, strategy) returning a
similarity score.  Opaque collaborator from ovos_utils, passed as a parameter. -/
def FuzzyFn : Type := Strategy → String → String → ℚ

/-- The reserved unknown token ModelContainer.UNK. -/
def UNK : String := "[unk]"

/-- VoskWakeWordPlugin.apply_rules.  Each sample is
lower-cased and stripped (s.lower().strip()); the transcript is used as-is.
The loop returns True on the first sample satisfying the rule, else False. -/
def apply_rules (fm : FuzzyFn) (transcript : String) (samples : List String)
    (rule : MatchRule) (thresh : ℚ) : Bool :=
  match samples with
  | [] => false
  | s0 :: rest =>
    let s := pyLowerStrip s0
    let hit : Bool :=
      match rule with
      | .fuzzy => decide (fm .simple s transcript ≥ thresh)
      | .tokenSort => decide (fm .tokenSort s transcript ≥ thresh)
      | .tokenSet => decide (fm .tokenSet s transcript ≥ thresh)
      | .pTokenSort => decide (fm .pTokenSort s transcript ≥ thresh)
      | .pTokenSet => decide (fm .pTokenSet s transcript ≥ thresh)
      | .contains => pyIn s transcript
      | .equals => decide (s = transcript)
      | .starts => pyStarts transcript s
      | .ends => pyEnds transcript s
    if hit then true else apply_rules fm transcript rest rule thresh

/-! ## ModelContainer (single-language) -/

/-- The vocabulary handed to a KaldiRecognizer at construction: either the
full model vocabulary or a constrained grammar (the JSON-encoded sample list). -/
inductive Vocab
  | full
  | constrained (samples : List String)
  deriving DecidableEq, Repr

/-- Python truthiness of an optional list: None and the empty list are falsy. -/
def pyFalsyList {α : Type} (o : Option (List α)) : Bool :=
  match o with
  | none => true
  | some [] => true
  | some (_ :: _) => false

/-- Python x or y for an optional list (y when x is None or empty). -/
def pyOrList {α : Type} (o : Option (List α)) (d : List α) : List α :=
  match o with
  | some (x :: xs) => x :: xs
  | _ => d

/-- State of ModelContainer after __init__ (samples and full_vocab fields). -/
structure ModelContainer where
  samples : List String
  full_vocab : Bool
  deriving DecidableEq, Repr

/-- ModelContainer.__init__: empty/absent samples with full_vocab False force
full-vocabulary mode; the UNK token is appended to samples when missing. -/
def ModelContainer.init (samples : Option (List String)) (full_vocab : Bool) :
    ModelContainer :=
  let fv := if full_vocab = false ∧ pyFalsyList samples = true then true else full_vocab
  let s := samples.getD []
  let s := if UNK ∈ s then s else s ++ [UNK]
  { samples := s, full_vocab := fv }

/-- ModelContainer.get_model reduced to its vocabulary decision: with a model
path it builds a KaldiRecognizer either in full-vocabulary mode or constrained
to (samples or self.samples); without a path it raises FileNotFoundError.
Python truthiness: an empty path string is falsy. -/
def ModelContainer.get_model (c : ModelContainer) (model_path : Option String)
    (samples : Option (List String)) : Except Unit Vocab :=
  match model_path with
  | some p =>
    if p = "" then .error ()
    else if c.full_vocab then .ok .full
    else .ok (.constrained (pyOrList samples c.samples))
  | none => .error ()

/-- ModelContainer.load_model: builds the engine from self.samples. -/
def ModelContainer.load_model (c : ModelContainer) (model_path : Option String) :
    Except Unit Vocab :=
  c.get_model model_path (some c.samples)

/-! ## Python dict operations (unique keys; insertion replaces, del removes) -/

/-- Lookup in a dict modelled as an association list with unique keys. -/
def dictLookup {β : Type} (d : List (String × β)) (k : String) : Option β :=
  match d with
  | [] => none
  | (k', v) :: rest => if k' = k then some v else dictLookup rest k

/-- Python del d[k]: removes the key's entry (dict keys are unique, so
filtering away the key is exactly the deletion of its single entry). -/
def dictDel {β : Type} (d : List (String × β)) (k : String) : List (String × β) :=
  d.filter (fun p => decide (p.1 ≠ k))

/-- Python d[k] = v: replaces any existing entry for k. -/
def dictInsert {β : Type} (d : List (String × β)) (k : String) (v : β) :
    List (String × β) :=
  (k, v) :: dictDel d k

/-- Python d.pop(k) with no default: returns the value and the shrunk dict,
or raises KeyError when k is absent. -/
def dictPop {β : Type} (d : List (String × β)) (k : String) :
    Except Unit (β × List (String × β)) :=
  match dictLookup d k with
  | some v => .ok (v, dictDel d k)
  | none => .error ()

lemma dictLookup_dictDel {β : Type} (d : List (String × β)) (k : String) :
    dictLookup (dictDel d k) k = none := by
  induction d with
  | nil => rfl
  | cons p rest ih =>
    simp only [dictDel] at ih ⊢
    by_cases h : p.1 = k
    · have hd : decide (p.1 ≠ k) = false := by simp [h]
      simp only [List.filter, hd]
      exact ih
    · have hd : decide (p.1 ≠ k) = true := by simp [h]
      simp only [List.filter, hd, dictLookup, if_neg h]
      exact ih

lemma dictLookup_dictInsert {β : Type} (d : List (String × β)) (k : String) (v : β) :
    dictLookup (dictInsert d k v) k = some v := by
  simp [dictInsert, dictLookup]

/-! ## MultiLangModelContainer -/

/-- A loaded KaldiRecognizer handle: an identity (to distinguish separate
loads) together with the vocabulary it was constructed with. -/
structure EngineHandle where
  id : Nat
  vocab : Vocab
  deriving DecidableEq, Repr

/-- State of MultiLangModelContainer: the engines/models class dicts, the
per-language sample dict, the base-container fields, and bookkeeping of the
engine constructions performed so far (loads, in order; nextId supplies fresh
handle identities). -/
structure MLState where
  lang_samples : List (String × List String)
  samples : List String
  full_vocab : Bool
  default_lang : String
  engines : List (String × EngineHandle)
  models : List (String × Option String)
  nextId : Nat
  loads : List String
  deriving DecidableEq, Repr

/-- Python x or y for optional strings: None and the empty string are falsy. -/
def pyOrStr (o : Option String) (d : String) : String :=
  match o with
  | some s => if s = "" then d else s
  | none => d

/-- The per-language model-url table of ModelContainer.lang2modelurl
(small models). -/
def smallLang2url : List (String × String) := [
  ("en", "http://alphacephei.com/vosk/models/vosk-model-small-en-us-0.15.zip"),
  ("en-in", "http://alphacephei.com/vosk/models/vosk-model-small-en-in-0.4.zip"),
  ("cn", "https://alphacephei.com/vosk/models/vosk-model-small-cn-0.3.zip"),
  ("ru", "https://alphacephei.com/vosk/models/vosk-model-small-ru-0.15.zip"),
  ("fr", "https://alphacephei.com/vosk/models/vosk-model-small-fr-pguyot-0.3.zip"),
  ("de", "https://alphacephei.com/vosk/models/vosk-model-small-de-0.15.zip"),
  ("es", "https://alphacephei.com/vosk/models/vosk-model-small-es-0.3.zip"),
  ("pt", "https://alphacephei.com/vosk/models/vosk-model-small-pt-0.3.zip"),
  ("gr", "https://alphacephei.com/vosk/models/vosk-model-el-gr-0.7.zip"),
  ("tr", "https://alphacephei.com/vosk/models/vosk-model-small-tr-0.3.zip"),
  ("vn", "https://alphacephei.com/vosk/models/vosk-model-small-vn-0.3.zip"),
  ("it", "https://alphacephei.com/vosk/models/vosk-model-small-it-0.4.zip"),
  ("nl", "https://alphacephei.com/vosk/models/vosk-model-nl-spraakherkenning-0.6-lgraph.zip"),
  ("ca", "https://alphacephei.com/vosk/models/vosk-model-small-ca-0.4.zip"),
  ("ar", "https://alphacephei.com/vosk/models/vosk-model-ar-mgb2-0.4.zip"),
  ("fa", "https://alphacephei.com/vosk/models/vosk-model-small-fa-0.5.zip"),
  ("tl", "https://alphacephei.com/vosk/models/vosk-model-tl-ph-generic-0.6.zip")]

/-- The big-model overrides of ModelContainer.lang2modelurl. -/
def bigLang2url : List (String × String) := [
  ("en", "https://alphacephei.com/vosk/models/vosk-model-en-us-aspire-0.2.zip"),
  ("en-in", "http://alphacephei.com/vosk/models/vosk-model-en-in-0.4.zip"),
  ("cn", "https://alphacephei.com/vosk/models/vosk-model-cn-0.1.zip"),
  ("ru", "https://alphacephei.com/vosk/models/vosk-model-ru-0.10.zip"),
  ("fr", "https://github.com/pguyot/zamia-speech/releases/download/20190930/kaldi-generic-fr-tdnn_f-r20191016.tar.xz"),
  ("de", "https://alphacephei.com/vosk/models/vosk-model-de-0.6.zip"),
  ("nl", "https://alphacephei.com/vosk/models/vosk-model-nl-spraakherkenning-0.6.zip"),
  ("fa", "https://alphacephei.com/vosk/models/vosk-model-fa-0.5.zip")]

/-- Python dict.update: existing keys are overridden, new keys appended. -/
def pyDictUpdate (d u : List (String × String)) : List (String × String) :=
  d.map (fun p => match dictLookup u p.1 with
                  | some v => (p.1, v)
                  | none => p)
    ++ u.filter (fun p => (dictLookup d p.1).isNone)

/-- ModelContainer.lang2modelurl: exact table lookup on the lowered tag first,
then on everything before the first dash. -/
def lang2modelurl (lang : String) (small : Bool) : Option String :=
  let table := if small then smallLang2url else pyDictUpdate smallLang2url bigLang2url
  let lang := pyLower lang
  match dictLookup table lang with
  | some url => some url
  | none => dictLookup table (pySplitHead lang)

/-- ModelContainer.download_language.  download_model (network download and
archive extraction, url to local path) is an opaque collaborator dlModel. -/
def download_language (dlModel : String → String) (lang : String) : Option String :=
  let lang := normLang lang
  match lang2modelurl lang true with
  | none => none
  | some mp => some (if pyStarts mp "http" then dlModel mp else mp)

/-- MultiLangModelContainer.load_model: stores the path under the normalized
language, then builds the engine with that language's sample list
(self.lang_samples.get(lang), falling back inside get_model to self.samples);
a missing or empty path makes get_model raise FileNotFoundError after
models[lang] was already assigned. -/
def MLState.load_model (s : MLState) (model_path : Option String)
    (lang : Option String) : Except Unit Unit × MLState :=
  let l := normLang (pyOrStr lang s.default_lang)
  let s := { s with models := dictInsert s.models l model_path }
  match ModelContainer.get_model ⟨s.samples, s.full_vocab⟩ model_path
      (dictLookup s.lang_samples l) with
  | .error e => (.error e, s)
  | .ok vocab =>
    (.ok (), { s with
      engines := dictInsert s.engines l ⟨s.nextId, vocab⟩,
      nextId := s.nextId + 1,
      loads := s.loads ++ [l] })

/-- MultiLangModelContainer.load_language: a normalized language already in
the engines dict is returned immediately; otherwise the model is resolved
(download_language) and loaded. -/
def MLState.load_language (s : MLState) (dlModel : String → String) (lang : String) :
    Except Unit Unit × MLState :=
  let l := normLang lang
  if (dictLookup s.engines l).isSome then (.ok (), s)
  else s.load_model (download_language dlModel l) (some l)

/-- MultiLangModelContainer.get_engine: normalizes the language (falling back
to the default), ensures it is loaded, and returns self.engines[lang]
(KeyError, i.e. an exception, if it is still absent). -/
def MLState.get_engine (s : MLState) (dlModel : String → String)
    (lang : Option String) : Except Unit EngineHandle × MLState :=
  let l := normLang (pyOrStr lang s.default_lang)
  match s.load_language dlModel l with
  | (.error e, s') => (.error e, s')
  | (.ok _, s') =>
    match dictLookup s'.engines l with
    | some h => (.ok h, s')
    | none => (.error (), s')

/-- MultiLangModelContainer.unload_language: when lang (not normalized) is a
key of engines, the entry is first deleted (del) and then popped again
(engines.pop(lang)); the pop finds no entry left and raises KeyError.  The
deletion performed before the raise persists, as Python mutation does. -/
def unload_language (engines : List (String × EngineHandle)) (lang : String) :
    Except Unit Unit × List (String × EngineHandle) :=
  if (dictLookup engines lang).isSome then
    let e1 := dictDel engines lang
    match dictPop e1 lang with
    | .ok (_, e2) => (.ok (), e2)
    | .error e => (.error e, e1)
  else (.ok (), engines)

/-! ## VoskWakeWordPlugin (single keyword) -/

/-- SEC_BETWEEN_WW_CHECKS = 0.2 seconds, the audio time represented by one
found_wake_word tick. -/
def SEC_BETWEEN_WW_CHECKS : ℚ := 1 / 5

/-- The time_between_checks configuration is clamped:
min(config value, 3). -/
def mkTimeBetweenChecks (cfg : ℚ) : ℚ := min cfg 3

/-- The external transcription step: ModelContainer.process_audio followed by
get_final_transcription, i.e. language and buffered audio to transcript.
An error models any exception raised while processing audio. -/
def Transcriber : Type := String → List Nat → Except Unit String

/-- Mutable state of VoskWakeWordPlugin used by found_wake_word.  The buffer
field holds the bytes of the ReadWriteStream. -/
structure VoskState where
  lang : String
  samples : List String
  rule : MatchRule
  thresh : ℚ
  time_between_checks : ℚ
  counter : ℚ
  buffer : List Nat
  deriving DecidableEq

/-- Result of one found_wake_word call: the return value, the successor
state, how many transcription attempts were made (0 or 1), and whether
apply_rules was invoked. -/
structure TickOut where
  found : Bool
  state : VoskState
  transcribed : Nat
  rulesApplied : Bool
  deriving DecidableEq

/-- The check part of VoskWakeWordPlugin.found_wake_word, entered once the
counter reached time_between_checks (the counter of s is already reset): the
buffered audio is transcribed (read() is modelled from the spec: it returns
the buffered bytes without clearing, per the AudioRingBuffer drain contract;
ReadWriteStream itself lives in ovos_plugin_manager), exceptions and
empty/UNK transcripts yield False without rules, and only a positive match
clears the buffer. -/
def checkTick (fm : FuzzyFn) (tr : Transcriber) (s : VoskState) : TickOut :=
  match tr s.lang s.buffer with
  | .error _ =>
    { found := false, state := s, transcribed := 1, rulesApplied := false }
  | .ok transcript =>
    if transcript = "" ∨ transcript = UNK then
      { found := false, state := s, transcribed := 1, rulesApplied := false }
    else
      let found := apply_rules fm transcript s.samples s.rule s.thresh
      { found := found,
        state := if found then { s with buffer := [] } else s,
        transcribed := 1, rulesApplied := true }

/-- VoskWakeWordPlugin.found_wake_word.  The counter advances by 0.2 per
tick; below time_between_checks the call returns False immediately; at or
above it the counter resets and the check runs. -/
def found_wake_word (fm : FuzzyFn) (tr : Transcriber) (s : VoskState) : TickOut :=
  if s.counter + SEC_BETWEEN_WW_CHECKS < s.time_between_checks then
    { found := false,
      state := { s with counter := s.counter + SEC_BETWEEN_WW_CHECKS },
      transcribed := 0, rulesApplied := false }
  else checkTick fm tr { s with counter := 0 }

/-- Iterated ticks: the list of returned booleans, the total number of
transcription attempts, and the final state. -/
def runTicks (fm : FuzzyFn) (tr : Transcriber) : Nat → VoskState →
    List Bool × Nat × VoskState
  | 0, s => ([], 0, s)
  | n + 1, s =>
    let o := found_wake_word fm tr s
    let r := runTicks fm tr n o.state
    (o.found :: r.1, o.transcribed + r.2.1, r.2.2)

/-! ## VoskMultiWakeWordPlugin (multiple keywords) -/

/-- One configured keyword of the multi plugin: the dict key (name) and the
optional per-keyword settings read with kw.get(...). -/
structure Keyword where
  name : String
  lang : Option String
  samples : Option (List String)
  rule : Option MatchRule
  threshold : ℚ
  wakeup : Bool

/-- Python kw.get("samples") or [kw_name with separators replaced]: None and
the empty list fall back to the default phrase derived from the name. -/
def kwSamples (kw : Keyword) : List String :=
  pyOrList kw.samples [sepsToSpaces kw.name]

/-- Python kw.get("rule") or MatchRule.EQUALS (rule values are non-empty
strings, so only a missing rule is falsy). -/
def kwRule (kw : Keyword) : MatchRule :=
  kw.rule.getD MatchRule.equals

/-- Mutable state of VoskMultiWakeWordPlugin used by found_wake_word. -/
structure MultiState where
  lang : String
  keywords : List Keyword
  time_between_checks : ℚ
  counter : ℚ
  buffer : List Nat

/-- Outcome of the keyword scan of one multi check: the return value, the
buffer afterwards, the bus messages emitted, the languages for which a
transcription attempt was made (in order), and the keyword names for which
apply_rules was invoked. -/
structure ScanOut where
  found : Bool
  buffer : List Nat
  emitted : List String
  transcribed : List String
  evaluated : List String
  deriving DecidableEq, Repr

/-- The keyword loop of VoskMultiWakeWordPlugin.found_wake_word.  txs is the
per-tick transcript dict; the source initialises it to {} and never assigns
into it, so the `lang in txs` branch reuses a transcript only if one was
stored, which never happens.  Transcription goes through the shared
MultiLangModelContainer, whose process_audio/get_final_transcription resolve
the engine for the normalized language; a transcription error logs and skips
the keyword (continue).  Empty or UNK transcripts skip the keyword.  On the
first match the buffer is cleared; a wakeup keyword emits
recognizer_loop:wake_up on the bus and makes the call return False,
any other match returns True. -/
def multiScan (fm : FuzzyFn) (tr : Transcriber) (selfLang : String)
    (buffer : List Nat) (txs : List (String × String)) : List Keyword → ScanOut
  | [] => ⟨false, buffer, [], [], []⟩
  | kw :: rest =>
    let lang := pyOrStr kw.lang selfLang
    let step : Option String × List String :=
      match dictLookup txs lang with
      | some t => (some t, [])
      | none =>
        match tr (normLang lang) buffer with
        | .ok t => (some t, [normLang lang])
        | .error _ => (none, [normLang lang])
    match step with
    | (none, att) =>
      let o := multiScan fm tr selfLang buffer txs rest
      ⟨o.found, o.buffer, o.emitted, att ++ o.transcribed, o.evaluated⟩
    | (some transcript, att) =>
      if transcript = "" ∨ transcript = UNK then
        let o := multiScan fm tr selfLang buffer txs rest
        ⟨o.found, o.buffer, o.emitted, att ++ o.transcribed, o.evaluated⟩
      else
        let found := apply_rules fm transcript (kwSamples kw) (kwRule kw) kw.threshold
        if found then
          if kw.wakeup then
            ⟨false, [], ["recognizer_loop:wake_up"], att, [kw.name]⟩
          else
            ⟨true, [], [], att, [kw.name]⟩
        else
          let o := multiScan fm tr selfLang buffer txs rest
          ⟨o.found, o.buffer, o.emitted, att ++ o.transcribed, kw.name :: o.evaluated⟩

/-- Result of one VoskMultiWakeWordPlugin.found_wake_word call. -/
structure MultiTickOut where
  found : Bool
  state : MultiState
  emitted : List String
  transcribed : List String
  evaluated : List String

/-- The check part of VoskMultiWakeWordPlugin.found_wake_word (counter
already reset): the keyword scan with a fresh empty txs dict. -/
def multiCheck (fm : FuzzyFn) (tr : Transcriber) (s : MultiState) : MultiTickOut :=
  let o := multiScan fm tr s.lang s.buffer [] s.keywords
  { found := o.found, state := { s with buffer := o.buffer },
    emitted := o.emitted, transcribed := o.transcribed, evaluated := o.evaluated }

/-- VoskMultiWakeWordPlugin.found_wake_word: the same 0.2-per-tick throttle
as the single plugin, then the keyword scan. -/
def multi_found_wake_word (fm : FuzzyFn) (tr : Transcriber) (s : MultiState) :
    MultiTickOut :=
  if s.counter + SEC_BETWEEN_WW_CHECKS < s.time_between_checks then
    { found := false,
      state := { s with counter := s.counter + SEC_BETWEEN_WW_CHECKS },
      emitted := [], transcribed := [], evaluated := [] }
  else multiCheck fm tr { s with counter := 0 }

/-- The per-keyword transcript of a tick (txs never holds an entry, so every
keyword's transcript comes from the engine of its normalized language). -/
def kwTranscript (tr : Transcriber) (selfLang : String) (buffer : List Nat)
    (kw : Keyword) : Except Unit String :=
  tr (normLang (pyOrStr kw.lang selfLang)) buffer

/-- Does the scan reach apply_rules for this keyword (transcription succeeded
and the transcript passes the empty/UNK gate)? -/
def kwReaches (tr : Transcriber) (selfLang : String) (buffer : List Nat)
    (kw : Keyword) : Bool :=
  match kwTranscript tr selfLang buffer kw with
  | .error _ => false
  | .ok t => if t = "" ∨ t = UNK then false else true

/-- Does this keyword match on this tick? -/
def kwFound (fm : FuzzyFn) (tr : Transcriber) (selfLang : String)
    (buffer : List Nat) (kw : Keyword) : Bool :=
  match kwTranscript tr selfLang buffer kw with
  | .error _ => false
  | .ok t =>
    if t = "" ∨ t = UNK then false
    else apply_rules fm t (kwSamples kw) (kwRule kw) kw.threshold

/-! ## Concrete collaborators used by closed evaluations -/

/-- A fuzzy scorer that always returns 0. -/
def fmZero : FuzzyFn := fun _ _ _ => 0

/-- A fuzzy scorer that always returns 1. -/
def fmOne : FuzzyFn := fun _ _ _ => 1

/-! ## Helper lemmas on apply_rules -/

/-- The strategy that fuzzy_match is called with under a score-based rule. -/
def ruleStrat (rule : MatchRule) : Option Strategy :=
  match rule with
  | .fuzzy => some .simple
  | .tokenSort => some .tokenSort
  | .tokenSet => some .tokenSet
  | .pTokenSort => some .pTokenSort
  | .pTokenSet => some .pTokenSet
  | _ => none

/-- The single-sample hit test of a score-based rule. -/
def scoreHit (fm : FuzzyFn) (tx : String) (strat : Strategy) (t : ℚ)
    (s0 : String) : Bool :=
  decide (fm strat (pyLowerStrip s0) tx ≥ t)

lemma ite_true_or (q A : Bool) : (if q = true then true else A) = (q || A) := by
  cases q <;> simp

lemma apply_rules_score (fm : FuzzyFn) (tx : String) (t : ℚ) (rule : MatchRule)
    (strat : Strategy) (h : ruleStrat rule = some strat) (samples : List String) :
    apply_rules fm tx samples rule t = samples.any (scoreHit fm tx strat t) := by
  induction samples with
  | nil => simp [apply_rules]
  | cons s0 rest ih =>
    cases rule <;> simp only [ruleStrat] at h <;> cases h <;>
      simp only [apply_rules, List.any_cons, scoreHit] <;>
      rw [ih] <;> exact ite_true_or _ _

lemma any_scoreHit_mono (fm : FuzzyFn) (tx : String) (strat : Strategy)
    (t1 t2 : ℚ) (hle : t1 ≤ t2) (samples : List String)
    (h : samples.any (scoreHit fm tx strat t2) = true) :
    samples.any (scoreHit fm tx strat t1) = true := by
  rw [List.any_eq_true] at h ⊢
  obtain ⟨s0, hmem, hs⟩ := h
  refine ⟨s0, hmem, ?_⟩
  simp only [scoreHit, ge_iff_le, decide_eq_true_eq] at hs ⊢
  exact le_trans hle hs

/-! ## C9 -/

/-- C9: for the score-based rules (FUZZY and the four ratio rules), if
apply_rules returns True at threshold t2 then it returns True at every
t1 at most t2: raising the threshold can only flip True to False. -/
theorem C9_threshold_monotone (fm : FuzzyFn) (transcript : String)
    (samples : List String) (rule : MatchRule) (t1 t2 : ℚ)
    (hrule : rule = .fuzzy ∨ rule = .tokenSort ∨ rule = .tokenSet ∨
      rule = .pTokenSort ∨ rule = .pTokenSet)
    (hle : t1 ≤ t2)
    (h : apply_rules fm transcript samples rule t2 = true) :
    apply_rules fm transcript samples rule t1 = true := by
  have hstrat : ∃ strat, ruleStrat rule = some strat := by
    rcases hrule with h5 | h5 | h5 | h5 | h5 <;> subst h5 <;> exact ⟨_, rfl⟩
  obtain ⟨strat, hs⟩ := hstrat
  rw [apply_rules_score fm transcript t2 rule strat hs] at h
  rw [apply_rules_score fm transcript t1 rule strat hs]
  exact any_scoreHit_mono fm transcript strat t1 t2 hle samples h

lemma C9w_base : apply_rules fmOne "hey" ["hey"] MatchRule.fuzzy 1 = true := by decide

/-- C9 witness: concrete monotonicity instance at thresholds 0 and 1. -/
theorem C9_threshold_monotone_witness :
    ((0:ℚ) ≤ 1) ∧ apply_rules fmOne "hey" ["hey"] MatchRule.fuzzy 0 = true :=
  ⟨by decide,
   C9_threshold_monotone fmOne "hey" ["hey"] MatchRule.fuzzy 0 1
     (Or.inl rfl) (by decide) C9w_base⟩

/-! ## C3 -/

/-- C3 counterexample: apply_rules does not normalize the transcript.  The
claim's own instance, transcript "Hey Mycroft" against phrase "hey mycroft"
under Equals, is False, while the lower-cased transcript gives True, so the
result is not invariant under transcript normalization. -/
theorem C3_counterexample :
    apply_rules fmZero "Hey Mycroft" ["hey mycroft"] MatchRule.equals (3/4) = false ∧
    apply_rules fmZero "hey mycroft" ["hey mycroft"] MatchRule.equals (3/4) = true := by
  exact ⟨by decide, by decide⟩

/-- C3 (amended): only the phrases are normalized (lower-cased and stripped)
before comparison; the transcript is used as-is.  Hence the result is
invariant under normalizing the phrases, though not the transcript. -/
theorem C3_phrase_normalization (fm : FuzzyFn) (transcript : String)
    (samples : List String) (rule : MatchRule) (thresh : ℚ) :
    apply_rules fm transcript (samples.map pyLowerStrip) rule thresh =
      apply_rules fm transcript samples rule thresh := by
  induction samples with
  | nil => rfl
  | cons s0 rest ih =>
    simp only [List.map_cons, apply_rules, pyLowerStrip_idem, ih]

/-! ## C10 -/

lemma init_unk_mem (samples : Option (List String)) (fv : Bool) :
    UNK ∈ (ModelContainer.init samples fv).samples := by
  unfold ModelContainer.init
  by_cases h : UNK ∈ samples.getD [] <;> simp [h]

/-- C10: ModelContainer.__init__ always puts the UNK token into the sample
list; with falsy samples and full_vocab False it switches to full-vocabulary
mode; and a recognizer built by load_model in constrained mode receives
exactly self.samples, which contains UNK. -/
theorem C10_unk_in_vocab (samples : Option (List String)) (fv : Bool)
    (path : String) :
    UNK ∈ (ModelContainer.init samples fv).samples ∧
    (pyFalsyList samples = true → fv = false →
      (ModelContainer.init samples fv).full_vocab = true) ∧
    ((ModelContainer.init samples fv).full_vocab = false → path ≠ "" →
      (ModelContainer.init samples fv).load_model (some path) =
        .ok (.constrained (ModelContainer.init samples fv).samples)) := by
  refine ⟨init_unk_mem samples fv, ?_, ?_⟩
  · intro hf hfv
    subst hfv
    unfold ModelContainer.init
    simp [hf]
  · intro hfv hp
    have hmem := init_unk_mem samples fv
    unfold ModelContainer.load_model ModelContainer.get_model
    rcases hcs : (ModelContainer.init samples fv).samples with _ | ⟨x, xs⟩
    · rw [hcs] at hmem
      exact absurd hmem (List.not_mem_nil _)
    · rw [hcs] at hmem
      rw [hfv]
      simp only [if_neg hp, Bool.false_eq_true, if_false]
      rfl

/-! ## C2 -/

/-- C2: the del/pop pair of unload_language makes every unload of a present
language raise KeyError (the entry is nevertheless removed); unloading an
absent language is a no-op that returns normally.  This contradicts the
claim that unload_language never fails. -/
theorem C2_unload_raises :
    unload_language [("en", ⟨0, Vocab.full⟩)] "en" =
      (Except.error (), ([] : List (String × EngineHandle))) ∧
    unload_language ([] : List (String × EngineHandle)) "en" =
      (Except.ok (), ([] : List (String × EngineHandle))) :=
  ⟨rfl, rfl⟩

/-! ## Tick-level helper lemmas -/

lemma found_wake_word_below (fm : FuzzyFn) (tr : Transcriber) (s : VoskState)
    (h : s.counter + SEC_BETWEEN_WW_CHECKS < s.time_between_checks) :
    found_wake_word fm tr s =
      ⟨false, { s with counter := s.counter + SEC_BETWEEN_WW_CHECKS }, 0, false⟩ := by
  unfold found_wake_word
  rw [if_pos h]

lemma found_wake_word_atCheck (fm : FuzzyFn) (tr : Transcriber) (s : VoskState)
    (h : ¬(s.counter + SEC_BETWEEN_WW_CHECKS < s.time_between_checks)) :
    found_wake_word fm tr s = checkTick fm tr { s with counter := 0 } := by
  unfold found_wake_word
  rw [if_neg h]

lemma multi_found_wake_word_below (fm : FuzzyFn) (tr : Transcriber) (s : MultiState)
    (h : s.counter + SEC_BETWEEN_WW_CHECKS < s.time_between_checks) :
    multi_found_wake_word fm tr s =
      ⟨false, { s with counter := s.counter + SEC_BETWEEN_WW_CHECKS }, [], [], []⟩ := by
  unfold multi_found_wake_word
  rw [if_pos h]

lemma multi_found_wake_word_atCheck (fm : FuzzyFn) (tr : Transcriber) (s : MultiState)
    (h : ¬(s.counter + SEC_BETWEEN_WW_CHECKS < s.time_between_checks)) :
    multi_found_wake_word fm tr s = multiCheck fm tr { s with counter := 0 } := by
  unfold multi_found_wake_word
  rw [if_neg h]

lemma checkTick_buffer (fm : FuzzyFn) (tr : Transcriber) (s : VoskState) :
    ((checkTick fm tr s).found = true → (checkTick fm tr s).state.buffer = []) ∧
    ((checkTick fm tr s).found = false → (checkTick fm tr s).state.buffer = s.buffer) ∧
    (checkTick fm tr s).state.counter = s.counter ∧
    (checkTick fm tr s).transcribed = 1 := by
  unfold checkTick
  cases htr : tr s.lang s.buffer with
  | error e => simp
  | ok t =>
    by_cases hg : t = "" ∨ t = UNK
    · simp [hg]
    · simp only [if_neg hg]
      by_cases hf : apply_rules fm t s.samples s.rule s.thresh = true
      · simp [hf]
      · simp only [Bool.not_eq_true] at hf
        simp [hf]

/-! ## C5 -/

/-- C5: a positive check clears the buffer; every negative outcome of
found_wake_word, including the throttled tick, a transcription error and an
empty/UNK transcript, leaves the buffer exactly as it was. -/
theorem C5_buffer_effect (fm : FuzzyFn) (tr : Transcriber) (s : VoskState) :
    ((found_wake_word fm tr s).found = true →
      (found_wake_word fm tr s).state.buffer = []) ∧
    ((found_wake_word fm tr s).found = false →
      (found_wake_word fm tr s).state.buffer = s.buffer) := by
  by_cases h : s.counter + SEC_BETWEEN_WW_CHECKS < s.time_between_checks
  · rw [found_wake_word_below fm tr s h]
    exact ⟨fun hf => absurd hf (by simp), fun _ => rfl⟩
  · rw [found_wake_word_atCheck fm tr s h]
    exact ⟨(checkTick_buffer fm tr _).1, (checkTick_buffer fm tr _).2.1⟩

/-- Transcriber returning the fixed transcript "hey". -/
def trHey : Transcriber := fun _ _ => .ok "hey"

/-- A single-keyword state due for a check on the next tick, with a phrase
equal to the transcript. -/
def sHey : VoskState :=
  { lang := "en", samples := ["hey"], rule := MatchRule.equals, thresh := 1,
    time_between_checks := 1 / 5, counter := 0, buffer := [1, 2] }

lemma sHey_atCheck :
    ¬(sHey.counter + SEC_BETWEEN_WW_CHECKS < sHey.time_between_checks) := by
  norm_num [sHey, SEC_BETWEEN_WW_CHECKS]

lemma sHey_found : (found_wake_word fmOne trHey sHey).found = true := by
  rw [found_wake_word_atCheck fmOne trHey sHey sHey_atCheck]
  decide

/-- C5 witness: a concrete positive match clears the buffer. -/
theorem C5_buffer_effect_witness :
    (found_wake_word fmOne trHey sHey).found = true ∧
    (found_wake_word fmOne trHey sHey).state.buffer = [] :=
  ⟨sHey_found, (C5_buffer_effect fmOne trHey sHey).1 sHey_found⟩

/-! ## C4 -/

lemma checkTick_gate (fm : FuzzyFn) (tr : Transcriber) (s : VoskState) (t : String)
    (htr : tr s.lang s.buffer = .ok t) (hg : t = "" ∨ t = UNK) :
    checkTick fm tr s = ⟨false, s, 1, false⟩ := by
  unfold checkTick
  rw [htr]
  simp [hg]

lemma multiScan_gated (fm : FuzzyFn) (tr : Transcriber) (sl : String)
    (buf : List Nat) : ∀ kws : List Keyword,
    (∀ kw ∈ kws, ∀ t,
      tr (normLang (pyOrStr kw.lang sl)) buf = .ok t → t = "" ∨ t = UNK) →
    (multiScan fm tr sl buf [] kws).found = false ∧
    (multiScan fm tr sl buf [] kws).buffer = buf ∧
    (multiScan fm tr sl buf [] kws).emitted = [] ∧
    (multiScan fm tr sl buf [] kws).evaluated = []
  | [], _ => by simp [multiScan]
  | kw :: rest, h => by
    have hrest := multiScan_gated fm tr sl buf rest
      (fun k hk t ht => h k (List.mem_cons_of_mem kw hk) t ht)
    cases htr : tr (normLang (pyOrStr kw.lang sl)) buf with
    | error e =>
      simp only [multiScan, dictLookup, htr]
      exact ⟨hrest.1, hrest.2.1, hrest.2.2.1, hrest.2.2.2⟩
    | ok t =>
      have hg : t = "" ∨ t = UNK := h kw (List.mem_cons_self kw rest) t htr
      simp only [multiScan, dictLookup, htr, if_pos hg]
      exact ⟨hrest.1, hrest.2.1, hrest.2.2.1, hrest.2.2.2⟩

/-- C4 (amended): a check whose transcript is the empty string or the
reserved UNK token returns False without applying any rule, in both the
single-keyword and multi-keyword detector.  (Whitespace-only transcripts are
not short-circuited: Python only treats the empty string as falsy, see the
counterexample.) -/
theorem C4_empty_unk_gate :
    (∀ (fm : FuzzyFn) (tr : Transcriber) (s : VoskState) (t : String),
      tr s.lang s.buffer = .ok t → t = "" ∨ t = UNK →
      (found_wake_word fm tr s).found = false ∧
      (found_wake_word fm tr s).rulesApplied = false) ∧
    (∀ (fm : FuzzyFn) (tr : Transcriber) (s : MultiState),
      (∀ kw ∈ s.keywords, ∀ t,
        tr (normLang (pyOrStr kw.lang s.lang)) s.buffer = .ok t →
        t = "" ∨ t = UNK) →
      (multi_found_wake_word fm tr s).found = false ∧
      (multi_found_wake_word fm tr s).evaluated = []) := by
  constructor
  · intro fm tr s t htr hg
    by_cases h : s.counter + SEC_BETWEEN_WW_CHECKS < s.time_between_checks
    · rw [found_wake_word_below fm tr s h]
      exact ⟨rfl, rfl⟩
    · rw [found_wake_word_atCheck fm tr s h]
      rw [checkTick_gate fm tr { s with counter := 0 } t htr hg]
      exact ⟨rfl, rfl⟩
  · intro fm tr s hall
    by_cases h : s.counter + SEC_BETWEEN_WW_CHECKS < s.time_between_checks
    · rw [multi_found_wake_word_below fm tr s h]
      exact ⟨rfl, rfl⟩
    · rw [multi_found_wake_word_atCheck fm tr s h]
      have := multiScan_gated fm tr s.lang s.buffer s.keywords hall
      exact ⟨this.1, this.2.2.2⟩

/-- Transcriber returning the empty transcript. -/
def trEmpty : Transcriber := fun _ _ => .ok ""

/-- A single-keyword state with time_between_checks of one second. -/
def sOneSec : VoskState :=
  { lang := "en", samples := ["hey"], rule := MatchRule.equals, thresh := 1,
    time_between_checks := 1, counter := 0, buffer := [] }

/-- Transcriber returning a whitespace-only transcript. -/
def trSpaces : Transcriber := fun _ _ => .ok "   "

/-- A single-keyword state with a whitespace phrase under the CONTAINS rule. -/
def sSpaces : VoskState :=
  { lang := "en", samples := [" "], rule := MatchRule.contains, thresh := 1,
    time_between_checks := 1 / 5, counter := 0, buffer := [5] }

lemma sSpaces_atCheck :
    ¬(sSpaces.counter + SEC_BETWEEN_WW_CHECKS < sSpaces.time_between_checks) := by
  norm_num [sSpaces, SEC_BETWEEN_WW_CHECKS]

/-- C4 counterexample: a whitespace-only transcript is not short-circuited;
with phrase-set containing a blank phrase it even matches, so the check
returns True rather than False. -/
theorem C4_counterexample :
    (found_wake_word fmZero trSpaces sSpaces).found = true := by
  rw [found_wake_word_atCheck fmZero trSpaces sSpaces sSpaces_atCheck]
  decide

/-- A one-keyword multi state whose language transcribes to "". -/
def msEmpty : MultiState :=
  { lang := "en",
    keywords := [⟨"hey", some "en", none, none, 1, false⟩],
    time_between_checks := 1 / 5, counter := 0, buffer := [] }

lemma msEmpty_hyp : ∀ kw ∈ msEmpty.keywords, ∀ t,
    trEmpty (normLang (pyOrStr kw.lang msEmpty.lang)) msEmpty.buffer = .ok t →
    t = "" ∨ t = UNK := by
  intro kw _ t ht
  exact Or.inl (by injection ht with h; exact h.symm)

/-- C4 witness: concrete empty transcripts pass both detectors untouched. -/
theorem C4_empty_unk_gate_witness :
    (trEmpty sOneSec.lang sOneSec.buffer = .ok "") ∧
    ((found_wake_word fmZero trEmpty sOneSec).found = false ∧
     (found_wake_word fmZero trEmpty sOneSec).rulesApplied = false) ∧
    ((multi_found_wake_word fmZero trEmpty msEmpty).found = false ∧
     (multi_found_wake_word fmZero trEmpty msEmpty).evaluated = []) :=
  ⟨rfl,
   C4_empty_unk_gate.1 fmZero trEmpty sOneSec "" rfl (Or.inl rfl),
   C4_empty_unk_gate.2 fmZero trEmpty msEmpty msEmpty_hyp⟩

/-! ## C1 -/

/-- Transcriber returning a fixed transcript that matches no phrase. -/
def trZzz : Transcriber := fun _ _ => .ok "zzz"

/-- Two keywords sharing the same language "en". -/
def msTwoEn : MultiState :=
  { lang := "en",
    keywords := [⟨"hey alpha", some "en", none, none, 1, false⟩,
                 ⟨"hey beta", some "en", none, none, 1, false⟩],
    time_between_checks := 1 / 5, counter := 0, buffer := [9] }

lemma msTwoEn_atCheck :
    ¬(msTwoEn.counter + SEC_BETWEEN_WW_CHECKS < msTwoEn.time_between_checks) := by
  norm_num [msTwoEn, SEC_BETWEEN_WW_CHECKS]

/-- C1: with two keywords sharing language "en" and a transcript passing the
gate for both, a single tick performs two transcription attempts for "en"
instead of reusing the first transcript: the txs dict of found_wake_word is
read but never written, so its reuse branch is unreachable. -/
theorem C1_retranscribes_same_language :
    (multi_found_wake_word fmZero trZzz msTwoEn).transcribed = ["en", "en"] ∧
    (multi_found_wake_word fmZero trZzz msTwoEn).found = false := by
  rw [multi_found_wake_word_atCheck fmZero trZzz msTwoEn msTwoEn_atCheck]
  exact ⟨by decide, by decide⟩

/-! ## C6 -/

lemma SEC_pos : (0:ℚ) < SEC_BETWEEN_WW_CHECKS := by
  norm_num [SEC_BETWEEN_WW_CHECKS]

lemma runTicks_below (fm : FuzzyFn) (tr : Transcriber) (n : Nat) :
    ∀ s : VoskState,
    s.counter + (n : ℚ) * SEC_BETWEEN_WW_CHECKS < s.time_between_checks →
    runTicks fm tr n s = (List.replicate n false, 0,
      { s with counter := s.counter + (n : ℚ) * SEC_BETWEEN_WW_CHECKS }) := by
  induction n with
  | zero =>
    intro s h
    simp [runTicks]
  | succ n ih =>
    intro s h
    have hcast : (((n : ℕ) + 1 : ℕ) : ℚ) = (n : ℚ) + 1 := by push_cast; ring
    have hnn : (0:ℚ) ≤ (n : ℚ) * SEC_BETWEEN_WW_CHECKS :=
      mul_nonneg (Nat.cast_nonneg n) SEC_pos.le
    have hb : s.counter + SEC_BETWEEN_WW_CHECKS < s.time_between_checks := by
      rw [hcast] at h
      nlinarith
    have hs' : ({ s with counter := s.counter + SEC_BETWEEN_WW_CHECKS } :
        VoskState).counter + (n : ℚ) * SEC_BETWEEN_WW_CHECKS <
        ({ s with counter := s.counter + SEC_BETWEEN_WW_CHECKS } :
          VoskState).time_between_checks := by
      show s.counter + SEC_BETWEEN_WW_CHECKS + (n : ℚ) * SEC_BETWEEN_WW_CHECKS <
        s.time_between_checks
      rw [hcast] at h
      nlinarith
    simp only [runTicks]
    rw [found_wake_word_below fm tr s hb]
    rw [ih { s with counter := s.counter + SEC_BETWEEN_WW_CHECKS } hs']
    simp only [Prod.mk.injEq]
    refine ⟨by simp [List.replicate_succ], by simp, ?_⟩
    have harith : s.counter + SEC_BETWEEN_WW_CHECKS + (n : ℚ) * SEC_BETWEEN_WW_CHECKS
        = s.counter + (((n : ℕ) + 1 : ℕ) : ℚ) * SEC_BETWEEN_WW_CHECKS := by
      rw [hcast]
      ring
    simp [harith]

/-- C6: starting from a reset counter, a run of n ticks whose accumulated
audio time n times 0.2 stays below time_between_checks returns False on
every tick and performs no transcription; any tick whose incremented counter
reaches time_between_checks resets the counter to 0 and performs exactly one
transcription attempt; and the configured time_between_checks is clamped to
at most 3 seconds. -/
theorem C6_throttle (fm : FuzzyFn) (tr : Transcriber) (s : VoskState) (n : Nat)
    (cfg : ℚ) (h0 : s.counter = 0)
    (hn : (n : ℚ) * SEC_BETWEEN_WW_CHECKS < s.time_between_checks) :
    ((runTicks fm tr n s).1 = List.replicate n false ∧
     (runTicks fm tr n s).2.1 = 0) ∧
    (∀ s' : VoskState,
      ¬(s'.counter + SEC_BETWEEN_WW_CHECKS < s'.time_between_checks) →
      (found_wake_word fm tr s').state.counter = 0 ∧
      (found_wake_word fm tr s').transcribed = 1) ∧
    mkTimeBetweenChecks cfg ≤ 3 := by
  refine ⟨?_, ?_, min_le_right cfg 3⟩
  · have h : s.counter + (n : ℚ) * SEC_BETWEEN_WW_CHECKS < s.time_between_checks := by
      rw [h0, zero_add]
      exact hn
    rw [runTicks_below fm tr n s h]
    exact ⟨rfl, rfl⟩
  · intro s' h'
    rw [found_wake_word_atCheck fm tr s' h']
    exact ⟨(checkTick_buffer fm tr _).2.2.1, (checkTick_buffer fm tr _).2.2.2⟩

lemma sOneSec_two_below :
    ((2 : ℕ) : ℚ) * SEC_BETWEEN_WW_CHECKS < sOneSec.time_between_checks := by
  norm_num [sOneSec, SEC_BETWEEN_WW_CHECKS]

/-- C6 witness: two ticks of 0.2 seconds against a one-second interval give
no transcription and only False results. -/
theorem C6_throttle_witness :
    (sOneSec.counter = 0 ∧
      ((2 : ℕ) : ℚ) * SEC_BETWEEN_WW_CHECKS < sOneSec.time_between_checks) ∧
    (((runTicks fmZero trEmpty 2 sOneSec).1 = List.replicate 2 false ∧
      (runTicks fmZero trEmpty 2 sOneSec).2.1 = 0) ∧
     (∀ s' : VoskState,
       ¬(s'.counter + SEC_BETWEEN_WW_CHECKS < s'.time_between_checks) →
       (found_wake_word fmZero trEmpty s').state.counter = 0 ∧
       (found_wake_word fmZero trEmpty s').transcribed = 1) ∧
     mkTimeBetweenChecks 7 ≤ 3) :=
  ⟨⟨rfl, sOneSec_two_below⟩,
   C6_throttle fmZero trEmpty sOneSec 2 7 rfl sOneSec_two_below⟩

/-! ## C8 -/

/-- The names of the keywords of ks for which apply_rules runs on a tick
(those whose transcript arrives and passes the empty/UNK gate). -/
def evalNames (tr : Transcriber) (sl : String) (buf : List Nat)
    (ks : List Keyword) : List String :=
  (ks.filter (fun k => kwReaches tr sl buf k)).map (fun k => k.name)

lemma multiScan_first_match (fm : FuzzyFn) (tr : Transcriber) (sl : String)
    (buf : List Nat) : ∀ (pre : List Keyword) (kw : Keyword) (post : List Keyword),
    (∀ k ∈ pre, kwFound fm tr sl buf k = false) →
    kwFound fm tr sl buf kw = true →
    (multiScan fm tr sl buf [] (pre ++ kw :: post)).found = !kw.wakeup ∧
    (multiScan fm tr sl buf [] (pre ++ kw :: post)).buffer = [] ∧
    (multiScan fm tr sl buf [] (pre ++ kw :: post)).emitted =
      (if kw.wakeup then ["recognizer_loop:wake_up"] else []) ∧
    (multiScan fm tr sl buf [] (pre ++ kw :: post)).evaluated =
      evalNames tr sl buf pre ++ [kw.name]
  | [], kw, post, _, hkw => by
    cases htr : tr (normLang (pyOrStr kw.lang sl)) buf with
    | error e =>
      simp only [kwFound, kwTranscript, htr] at hkw
      exact absurd hkw Bool.false_ne_true
    | ok t =>
      simp only [kwFound, kwTranscript, htr] at hkw
      by_cases hg : t = "" ∨ t = UNK
      · rw [if_pos hg] at hkw
        exact absurd hkw (by simp)
      · rw [if_neg hg] at hkw
        simp only [List.nil_append, multiScan, dictLookup, htr, if_neg hg, hkw,
          evalNames, List.filter_nil, List.map_nil]
        cases hw : kw.wakeup <;> simp
  | k :: pre, kw, post, hpre, hkw => by
    have hk : kwFound fm tr sl buf k = false := hpre k (List.mem_cons_self k pre)
    have ih := multiScan_first_match fm tr sl buf pre kw post
      (fun x hx => hpre x (List.mem_cons_of_mem k hx)) hkw
    cases htr : tr (normLang (pyOrStr k.lang sl)) buf with
    | error e =>
      have hr : kwReaches tr sl buf k = false := by
        simp only [kwReaches, kwTranscript, htr]
      simp only [List.cons_append, multiScan, dictLookup, htr]
      refine ⟨ih.1, ih.2.1, ih.2.2.1, ?_⟩
      simp only [evalNames, List.filter_cons, hr, Bool.false_eq_true, if_false]
      exact ih.2.2.2
    | ok t =>
      simp only [kwFound, kwTranscript, htr] at hk
      by_cases hg : t = "" ∨ t = UNK
      · have hr : kwReaches tr sl buf k = false := by
          simp only [kwReaches, kwTranscript, htr]
          rw [if_pos hg]
        simp only [List.cons_append, multiScan, dictLookup, htr, if_pos hg]
        refine ⟨ih.1, ih.2.1, ih.2.2.1, ?_⟩
        simp only [evalNames, List.filter_cons, hr, Bool.false_eq_true, if_false]
        exact ih.2.2.2
      · rw [if_neg hg] at hk
        have hr : kwReaches tr sl buf k = true := by
          simp only [kwReaches, kwTranscript, htr]
          rw [if_neg hg]
        simp only [List.cons_append, multiScan, dictLookup, htr, if_neg hg, hk,
          Bool.false_eq_true, if_false]
        refine ⟨ih.1, ih.2.1, ih.2.2.1, ?_⟩
        simp only [evalNames, List.filter_cons, hr, if_true, List.map_cons,
          List.cons_append]
        exact congrArg (List.cons k.name) ih.2.2.2

/-- C8: on a check tick, when the keywords before kw all fail and kw matches,
found_wake_word clears the buffer and stops scanning: a wakeup keyword emits
recognizer_loop:wake_up and the call returns False, a non-wakeup keyword
returns True with nothing emitted; apply_rules ran only for the reachable
earlier keywords and kw itself, never for later keywords. -/
theorem C8_first_match_routing (fm : FuzzyFn) (tr : Transcriber) (s : MultiState)
    (pre : List Keyword) (kw : Keyword) (post : List Keyword)
    (hkws : s.keywords = pre ++ kw :: post)
    (hpre : ∀ k ∈ pre, kwFound fm tr s.lang s.buffer k = false)
    (hkw : kwFound fm tr s.lang s.buffer kw = true)
    (hthr : ¬(s.counter + SEC_BETWEEN_WW_CHECKS < s.time_between_checks)) :
    (multi_found_wake_word fm tr s).found = !kw.wakeup ∧
    (multi_found_wake_word fm tr s).state.buffer = [] ∧
    (multi_found_wake_word fm tr s).emitted =
      (if kw.wakeup then ["recognizer_loop:wake_up"] else []) ∧
    (multi_found_wake_word fm tr s).evaluated =
      evalNames tr s.lang s.buffer pre ++ [kw.name] := by
  rw [multi_found_wake_word_atCheck fm tr s hthr]
  unfold multiCheck
  dsimp only
  rw [hkws]
  exact multiScan_first_match fm tr s.lang s.buffer pre kw post hpre hkw

/-- A wakeup-flagged keyword whose phrase equals the transcript "hey". -/
def kwWake : Keyword :=
  ⟨"wake up", some "en", some ["hey"], some MatchRule.equals, 1, true⟩

/-- A multi state holding only the wakeup keyword. -/
def msWake : MultiState :=
  { lang := "en", keywords := [kwWake], time_between_checks := 1 / 5,
    counter := 0, buffer := [3] }

lemma msWake_atCheck :
    ¬(msWake.counter + SEC_BETWEEN_WW_CHECKS < msWake.time_between_checks) := by
  norm_num [msWake, SEC_BETWEEN_WW_CHECKS]

lemma kwWake_found : kwFound fmZero trHey msWake.lang msWake.buffer kwWake = true := by
  decide

/-- C8 witness: the wakeup keyword matches, the buffer is cleared, the
wake-up message is emitted and found_wake_word returns False. -/
theorem C8_first_match_routing_witness :
    kwFound fmZero trHey msWake.lang msWake.buffer kwWake = true ∧
    ((multi_found_wake_word fmZero trHey msWake).found = !kwWake.wakeup ∧
     (multi_found_wake_word fmZero trHey msWake).state.buffer = [] ∧
     (multi_found_wake_word fmZero trHey msWake).emitted =
       (if kwWake.wakeup then ["recognizer_loop:wake_up"] else []) ∧
     (multi_found_wake_word fmZero trHey msWake).evaluated =
       evalNames trHey msWake.lang msWake.buffer [] ++ [kwWake.name]) :=
  ⟨kwWake_found,
   C8_first_match_routing fmZero trHey msWake [] kwWake [] rfl
     (fun k hk => absurd hk (List.not_mem_nil k)) kwWake_found msWake_atCheck⟩

/-! ## C7 -/

/-- The vocabulary a fresh engine for language l is built with. -/
def mlVocab (s : MLState) (l : String) : Vocab :=
  if s.full_vocab = true then Vocab.full
  else Vocab.constrained (pyOrList (dictLookup s.lang_samples l) s.samples)

/-- The state after a successful load of language l from path p. -/
def loadedState (s : MLState) (l : String) (p : String) : MLState :=
  { s with
    models := dictInsert s.models l (some p),
    engines := dictInsert s.engines l ⟨s.nextId, mlVocab s l⟩,
    nextId := s.nextId + 1,
    loads := s.loads ++ [l] }

lemma load_language_cached (s : MLState) (dl : String → String) (l : String)
    (h : EngineHandle) (hnorm : normLang l = l)
    (hc : dictLookup s.engines l = some h) :
    s.load_language dl l = (.ok (), s) := by
  unfold MLState.load_language
  dsimp only
  rw [hnorm, hc]
  rfl

lemma load_language_uncached (s : MLState) (dl : String → String) (l : String)
    (hnorm : normLang l = l) (hc : dictLookup s.engines l = none) :
    s.load_language dl l = s.load_model (download_language dl l) (some l) := by
  unfold MLState.load_language
  dsimp only
  rw [hnorm, hc]
  rfl

lemma load_model_ok (s : MLState) (l p : String) (hl : l ≠ "")
    (hnorm : normLang l = l) (hp : p ≠ "") :
    s.load_model (some p) (some l) = (.ok (), loadedState s l p) := by
  unfold MLState.load_model ModelContainer.get_model loadedState mlVocab
  dsimp only
  rw [pyOrStr]
  rw [if_neg hl, hnorm, if_neg hp]
  cases hfv : s.full_vocab <;> simp [hfv]

lemma load_model_nonePath (s : MLState) (lang : Option String) :
    s.load_model none lang =
      (.error (),
       { s with models := dictInsert s.models (normLang (pyOrStr lang s.default_lang)) none }) :=
  rfl

lemma load_model_emptyPath (s : MLState) (l : String) (hl : l ≠ "")
    (hnorm : normLang l = l) :
    s.load_model (some "") (some l) =
      (.error (), { s with models := dictInsert s.models l (some "") }) := by
  unfold MLState.load_model ModelContainer.get_model
  dsimp only
  rw [pyOrStr]
  rw [if_neg hl, hnorm, if_pos rfl]

lemma get_engine_cached (dl : String → String) (s : MLState) (lang : Option String)
    (h : EngineHandle)
    (hc : dictLookup s.engines (normLang (pyOrStr lang s.default_lang)) = some h) :
    s.get_engine dl lang = (.ok h, s) := by
  unfold MLState.get_engine
  dsimp only
  rw [load_language_cached s dl _ h (normLang_idem _) hc]
  dsimp only
  rw [hc]

lemma get_engine_uncached_ok (dl : String → String) (s : MLState)
    (lang : Option String) (p : String)
    (hl : normLang (pyOrStr lang s.default_lang) ≠ "")
    (hc : dictLookup s.engines (normLang (pyOrStr lang s.default_lang)) = none)
    (hdl : download_language dl (normLang (pyOrStr lang s.default_lang)) = some p)
    (hp : p ≠ "") :
    s.get_engine dl lang =
      (.ok ⟨s.nextId, mlVocab s (normLang (pyOrStr lang s.default_lang))⟩,
       loadedState s (normLang (pyOrStr lang s.default_lang)) p) := by
  unfold MLState.get_engine
  dsimp only
  rw [load_language_uncached s dl _ (normLang_idem _) hc, hdl,
    load_model_ok s _ p hl (normLang_idem _) hp]
  dsimp only
  rw [show (loadedState s (normLang (pyOrStr lang s.default_lang)) p).engines =
    dictInsert s.engines (normLang (pyOrStr lang s.default_lang))
      ⟨s.nextId, mlVocab s (normLang (pyOrStr lang s.default_lang))⟩ from rfl]
  rw [dictLookup_dictInsert]

lemma get_engine_err (dl : String → String) (s : MLState) (lang : Option String)
    (hl : normLang (pyOrStr lang s.default_lang) ≠ "")
    (hc : dictLookup s.engines (normLang (pyOrStr lang s.default_lang)) = none)
    (hbad : download_language dl (normLang (pyOrStr lang s.default_lang)) = none ∨
      download_language dl (normLang (pyOrStr lang s.default_lang)) = some "") :
    ∃ s1, s.get_engine dl lang = (.error (), s1) := by
  unfold MLState.get_engine
  dsimp only
  rw [load_language_uncached s dl _ (normLang_idem _) hc]
  rcases hbad with hbad | hbad
  · rw [hbad, load_model_nonePath]
    exact ⟨_, rfl⟩
  · rw [hbad, load_model_emptyPath s _ hl (normLang_idem _)]
    exact ⟨_, rfl⟩

lemma unload_present (s : MLState) (l : String) (h : EngineHandle)
    (hc : dictLookup s.engines l = some h) :
    unload_language s.engines l = (.error (), dictDel s.engines l) := by
  unfold unload_language
  rw [hc]
  simp [dictPop, dictLookup_dictDel]

/-- C7: the multi-language cache loads each normalized language at most
once.  A cached language is returned as-is with no state change; a second
get_engine for the same language returns the same handle and the same state
(hence no further load); and only after unload_language removed the entry
does get_engine load again, recording exactly one new engine construction. -/
theorem C7_load_once (dl : String → String) (s : MLState) (lang : Option String) :
    (∀ h, dictLookup s.engines (normLang (pyOrStr lang s.default_lang)) = some h →
      s.get_engine dl lang = (.ok h, s)) ∧
    (normLang (pyOrStr lang s.default_lang) ≠ "" →
      ∀ h s', s.get_engine dl lang = (.ok h, s') →
      s'.get_engine dl lang = (.ok h, s') ∧
      dictLookup s'.engines (normLang (pyOrStr lang s.default_lang)) = some h) ∧
    (∀ h p, dictLookup s.engines (normLang (pyOrStr lang s.default_lang)) = some h →
      normLang (pyOrStr lang s.default_lang) ≠ "" →
      download_language dl (normLang (pyOrStr lang s.default_lang)) = some p →
      p ≠ "" →
      (MLState.get_engine
        { s with engines :=
            (unload_language s.engines (normLang (pyOrStr lang s.default_lang))).2 }
        dl lang).2.loads
        = s.loads ++ [normLang (pyOrStr lang s.default_lang)]) := by
  refine ⟨fun h hc => get_engine_cached dl s lang h hc, ?_, ?_⟩
  · intro hl h s' hok
    rcases hcase : dictLookup s.engines (normLang (pyOrStr lang s.default_lang))
      with _ | h0
    · rcases hdl : download_language dl (normLang (pyOrStr lang s.default_lang))
        with _ | p
      · obtain ⟨s1, he⟩ := get_engine_err dl s lang hl hcase (Or.inl hdl)
        rw [he] at hok
        exact absurd hok (by simp)
      · by_cases hp : p = ""
        · subst hp
          obtain ⟨s1, he⟩ := get_engine_err dl s lang hl hcase (Or.inr hdl)
          rw [he] at hok
          exact absurd hok (by simp)
        · rw [get_engine_uncached_ok dl s lang p hl hcase hdl hp] at hok
          rw [Prod.mk.injEq] at hok
          obtain ⟨he, hs⟩ := hok
          injection he with hh
          subst hh
          subst hs
          have hlook : dictLookup (loadedState s
              (normLang (pyOrStr lang s.default_lang)) p).engines
              (normLang (pyOrStr lang s.default_lang)) =
              some ⟨s.nextId, mlVocab s (normLang (pyOrStr lang s.default_lang))⟩ :=
            dictLookup_dictInsert _ _ _
          exact ⟨get_engine_cached dl _ lang _ hlook, hlook⟩
    · have he := get_engine_cached dl s lang h0 hcase
      rw [he] at hok
      rw [Prod.mk.injEq] at hok
      obtain ⟨he2, hs⟩ := hok
      injection he2 with hh
      subst hh
      subst hs
      exact ⟨get_engine_cached dl s lang h0 hcase, hcase⟩
  · intro h p hc hl hdl hp
    rw [unload_present s _ h hc]
    have hc2 : dictLookup (dictDel s.engines
        (normLang (pyOrStr lang s.default_lang)))
        (normLang (pyOrStr lang s.default_lang)) = none :=
      dictLookup_dictDel _ _
    rw [get_engine_uncached_ok dl
      { s with engines := dictDel s.engines (normLang (pyOrStr lang s.default_lang)) }
      lang p hl hc2 hdl hp]
    rfl

/-- A downloader mapping every url to a fixed local path. -/
def dlFixed : String → String := fun _ => "/models/en"

/-- A cache state with language "en" loaded as handle 7. -/
def msCache : MLState :=
  { lang_samples := [("en", ["hey"])], samples := ["hey", "[unk]"],
    full_vocab := false, default_lang := "en",
    engines := [("en", ⟨7, Vocab.constrained ["hey"]⟩)],
    models := [("en", some "/models/en")], nextId := 8, loads := ["en"] }

lemma msCache_lookup :
    dictLookup msCache.engines (normLang (pyOrStr (some "en-US") msCache.default_lang))
      = some ⟨7, Vocab.constrained ["hey"]⟩ := by decide

lemma msCache_dl :
    download_language dlFixed (normLang (pyOrStr (some "en-US") msCache.default_lang))
      = some "/models/en" := by decide

/-- C7 witness: with "en" cached, get_engine for "en-US" returns the cached
handle without touching the state, a repeated call is stable, and after the
unload a fresh request records exactly one reload of "en". -/
theorem C7_load_once_witness :
    (msCache.get_engine dlFixed (some "en-US") =
      (.ok ⟨7, Vocab.constrained ["hey"]⟩, msCache)) ∧
    ((MLState.get_engine
        { msCache with engines :=
            (unload_language msCache.engines
              (normLang (pyOrStr (some "en-US") msCache.default_lang))).2 }
        dlFixed (some "en-US")).2.loads
      = msCache.loads ++ [normLang (pyOrStr (some "en-US") msCache.default_lang)]) :=
  ⟨(C7_load_once dlFixed msCache (some "en-US")).1 ⟨7, Vocab.constrained ["hey"]⟩
      msCache_lookup,
   (C7_load_once dlFixed msCache (some "en-US")).2.2 ⟨7, Vocab.constrained ["hey"]⟩
      "/models/en" msCache_lookup (by decide) msCache_dl (by decide)⟩

/-- C10 witness: no samples forces full vocabulary; explicit samples give a
constrained recognizer whose vocabulary is the UNK-extended sample list. -/
theorem C10_unk_in_vocab_witness :
    UNK ∈ (ModelContainer.init none false).samples ∧
    (ModelContainer.init none false).full_vocab = true ∧
    (ModelContainer.init (some ["hey mycroft"]) false).load_model (some "m") =
      .ok (.constrained (ModelContainer.init (some ["hey mycroft"]) false).samples) :=
  ⟨(C10_unk_in_vocab none false "m").1,
   (C10_unk_in_vocab none false "m").2.1 rfl rfl,
   (C10_unk_in_vocab (some ["hey mycroft"]) false "m").2.2 (by decide) (by decide)⟩

end Vosk
